import Mathlib

/-!
Shallow embedding of the HydraDX price-fetch pallet
(`pallets/price-fetch/src/lib.rs`).

Modelling conventions:
* `Price` is `sp_runtime::FixedU128` (`primitives::Price`): a fixed-point
  value stored as a `u128` mantissa with `DIV = 10^18` decimal places.
  The mantissa is modelled as a `Nat` together with explicit reduction
  modulo `2^128` where the Rust `u128` arithmetic can overflow.
* `FixedU128`'s `Add` impl is plain `u128` addition on the inner value,
  which wraps modulo `2^128` under release-profile semantics (it panics
  when overflow checks are enabled; either way it is not saturating or
  checked).  `FixedU128`'s `Div` impl panics on a zero divisor and on a
  quotient that does not fit in `u128`; those panics are modelled as
  `none`.
* Substrate storage maps (`Fetchers`, `FetchedPrices`, `AvgPrices`) are
  modelled as association lists with lookup / insert / remove; insert
  replaces any previous binding for the key, matching map semantics.
* `Vec<u8>` byte strings (symbols, URLs, timestamps) are modelled as
  `String`; all the concrete byte strings involved are ASCII.
* Dispatchable calls become pure functions
  `... → PalletState → Except Error PalletState`; a dispatch error rolls
  the extrinsic back, so an `.error` result leaves the state unchanged
  (made explicit by `dispatchResult`).
* Event deposition, signing, and transaction transmission are elided:
  the offchain worker helpers return the `Call` payload they would
  submit via `send_signed_transaction`.
-/

namespace PriceFetch

/-- `2^128`: one more than the largest `u128` value. -/
def U128_MOD : Nat := 2 ^ 128

/-- `FixedU128::DIV = 10^18`: the fixed-point scale factor. -/
def PRICE_DIV : Nat := 10 ^ 18

/-- `primitives::Price = FixedU128`: fixed-point value with `u128` inner
mantissa. -/
structure Price where
  inner : Nat
  deriving DecidableEq

/-- `FixedU128::saturating_from_integer`, the `From<u128>` conversion used
by `Price::from(n)`: saturates at the largest representable value. -/
def priceFrom (n : Nat) : Price :=
  ⟨min (n * PRICE_DIV) (U128_MOD - 1)⟩

/-- The `Add` impl of `FixedU128`: plain `u128` addition of the inner
values, wrapping modulo `2^128` (release-profile semantics). -/
def priceAdd (a b : Price) : Price :=
  ⟨(a.inner + b.inner) % U128_MOD⟩

/-- The `Div` impl of `FixedU128`: `floor(a.inner * DIV / b.inner)`.
`none` models the panics of the Rust impl: a zero divisor, or a quotient
that does not fit in `u128`. -/
def priceDiv (a b : Price) : Option Price :=
  if b.inner = 0 then none
  else
    let r := a.inner * PRICE_DIV / b.inner
    if r < U128_MOD then some ⟨r⟩ else none

/-- `const SYM: &[u8; 3] = b"ETH"`. -/
def SYM : String := "ETH"

/-- `pub const SYMBOLS`: the one-entry symbol → URL allow-list. -/
def SYMBOLS : List (String × String) :=
  [("ETH", "https://api.diadata.org/v1/quotation/ETH")]

/-- `struct DiaPriceRecord`: the record parsed from the DIA response. -/
structure DiaPriceRecord where
  price : Price
  time : String
  symbol : String
  deriving DecidableEq

/-- `struct FetchedPrice<AccountId>`: one stored raw observation.
`AccountId` is modelled as `Nat`. -/
structure FetchedPrice where
  price : Price
  time : String
  symbol : String
  author : Nat
  deriving DecidableEq

/-- `struct Fetcher<BlockNumber>`: one open fetch window.  `BlockNumber`
is modelled as `Nat`. -/
structure Fetcher where
  symbol : String
  url : String
  end_fetching_at : Nat
  deriving DecidableEq

/-- Association-list lookup: the value bound to `k`, if any. -/
def mapLookup {β : Type} (m : List (String × β)) (k : String) : Option β :=
  match m with
  | [] => none
  | (k2, v) :: rest => if k2 = k then some v else mapLookup rest k

/-- Association-list removal of every binding for `k` (storage `take` /
`remove`). -/
def mapRemove {β : Type} (m : List (String × β)) (k : String) :
    List (String × β) :=
  match m with
  | [] => []
  | (k2, v) :: rest =>
    if k2 = k then mapRemove rest k else (k2, v) :: mapRemove rest k

/-- Association-list insert (storage `insert`): replaces any previous
binding for `k`. -/
def mapInsert {β : Type} (m : List (String × β)) (k : String) (v : β) :
    List (String × β) :=
  (k, v) :: mapRemove m k

/-- The pallet's storage: the three maps declared in `decl_storage!`.
`AvgPrices` values are `(Moment, Price, AccountId)` with `Moment` and
`AccountId` modelled as `Nat`. -/
structure PalletState where
  Fetchers : List (String × Fetcher)
  FetchedPrices : List (String × List FetchedPrice)
  AvgPrices : List (String × (Nat × Price × Nat))
  deriving DecidableEq

/-- `decl_error!`: the pallet's dispatch errors. -/
inductive Error
  | FetcherAlreadyExist
  | SymbolNotFound
  | FetcherNotFound
  deriving DecidableEq

/-- Substrate dispatch semantics: an extrinsic that returns an error is
rolled back, leaving storage unchanged. -/
def dispatchResult (r : Except Error PalletState) (st : PalletState) :
    PalletState :=
  match r with
  | .ok st2 => st2
  | .error _ => st

/-- `start_fetcher(origin)`: fails with `FetcherAlreadyExist` when a
fetcher for the hardcoded symbol `SYM` exists; otherwise looks `SYM` up in
`SYMBOLS` (failing with `SymbolNotFound` when absent) and inserts a new
`Fetcher` ending at `block_number + 600`.  `who` is the signed origin and
`now` the timestamp; both feed only the elided `NewFetcher` event. -/
def start_fetcher (who block_number now : Nat) (st : PalletState) :
    Except Error PalletState :=
  match mapLookup st.Fetchers SYM with
  | some _ => .error .FetcherAlreadyExist
  | none =>
    let end_at := block_number + 600
    match (SYMBOLS.find? (fun p => p.1 == SYM)).map (fun p => p.2) with
    | none => .error .SymbolNotFound
    | some url =>
      let new_fetcher : Fetcher := ⟨SYM, url, end_at⟩
      have := who; have := now
      .ok { st with Fetchers := mapInsert st.Fetchers SYM new_fetcher }

/-- `fn add_new_price_to_list`: `FetchedPrices::mutate(price.symbol,
|prices| prices.push(price))`, where a missing key reads as the default
empty vector. -/
def add_new_price_to_list (price : FetchedPrice) (st : PalletState) :
    PalletState :=
  { st with
    FetchedPrices :=
      mapInsert st.FetchedPrices price.symbol
        (((mapLookup st.FetchedPrices price.symbol).getD []) ++ [price]) }

/-- `submit_new_price(origin, price_record)`: fails with
`FetcherNotFound` when no fetcher exists for the record's symbol;
otherwise appends the observation via `add_new_price_to_list`. -/
def submit_new_price (who now : Nat) (price_record : DiaPriceRecord)
    (st : PalletState) : Except Error PalletState :=
  match mapLookup st.Fetchers price_record.symbol with
  | none => .error .FetcherNotFound
  | some _ =>
    have := now
    .ok (add_new_price_to_list
      ⟨price_record.price, price_record.time, price_record.symbol, who⟩ st)

/-- `submit_new_avg_price(origin, symbol, avg_price)`: unconditionally
inserts the aggregate into `AvgPrices` and `take`s (removes) the fetcher
and the fetched-price list for `symbol`.  There is no existence check. -/
def submit_new_avg_price (who now : Nat) (symbol : String)
    (avg_price : Price) (st : PalletState) : Except Error PalletState :=
  .ok { st with
        AvgPrices := mapInsert st.AvgPrices symbol (now, avg_price, who),
        Fetchers := mapRemove st.Fetchers symbol,
        FetchedPrices := mapRemove st.FetchedPrices symbol }

/-- The running sum of `calc_and_submit_avg_price`:
`let mut sum = Price::from(0); ...; sum = sum + pp.price`. -/
def sumPrices (price_points : List FetchedPrice) : Price :=
  price_points.foldl (fun s pp => priceAdd s pp.price) (priceFrom 0)

/-- The running count of `calc_and_submit_avg_price`:
`samples_count = samples_count + Price::from(1)`. -/
def samplesCount (price_points : List FetchedPrice) : Price :=
  price_points.foldl (fun c _ => priceAdd c (priceFrom 1)) (priceFrom 0)

/-- `fn calc_and_submit_avg_price`: reads the fetched prices for the
fetcher's symbol, computes `sum / samples_count` in `Price` arithmetic,
and returns the `Call::submit_new_avg_price(symbol, avg_price)` payload it
hands to `send_signed_transaction`.  `none` models the panic of the
fixed-point division (zero samples divide by zero).  The local-signer
availability check and the transmission of the signed transaction are
elided. -/
def calc_and_submit_avg_price (fetcher : Fetcher) (st : PalletState) :
    Option (String × Price) :=
  let price_points := (mapLookup st.FetchedPrices fetcher.symbol).getD []
  (priceDiv (sumPrices price_points) (samplesCount price_points)).map
    (fun avg_price => (fetcher.symbol, avg_price))

/-- The action `fn offchain_worker` takes for one fetcher. -/
inductive WorkerTask
  | aggregate
  | fetchAndSubmit
  | noAction
  deriving DecidableEq

/-- The per-fetcher dispatch of `fn offchain_worker(block_number)`:
aggregate when `f.end_fetching_at <= block_number`, otherwise fetch and
submit when `block_number % GracePeriod == 0`, otherwise do nothing. -/
def offchain_worker_action (grace_period block_number : Nat)
    (f : Fetcher) : WorkerTask :=
  if f.end_fetching_at ≤ block_number then .aggregate
  else if block_number % grace_period = 0 then .fetchAndSubmit
  else .noAction

/-- `fn offchain_worker(block_number)`: iterates over all fetchers and
chooses an action for each. -/
def offchain_worker (grace_period block_number : Nat) (st : PalletState) :
    List (String × WorkerTask) :=
  st.Fetchers.map
    (fun kv => (kv.1, offchain_worker_action grace_period block_number kv.2))

/-- The exact rational value `num / den` of a finite `f64`, the form in
which the deserialized floating-point price enters `de_float_to_price`. -/
structure FloatValue where
  num : Int
  den : Nat
  deriving DecidableEq

/-- The Rust `as u128` cast applied to a finite `f64` given by its exact
rational value: truncation toward zero, saturating at `u128::MAX`;
values at or below zero go to `0`. -/
def castF64ToU128 (q : FloatValue) : Nat :=
  if q.num ≤ 0 then 0
  else min (q.num.toNat / q.den) (U128_MOD - 1)

/-- The multiplication `fp * 1_000_000_000_000_000_000_f64` on the exact
rational value.  The rounding of the `f64` product to the nearest
representable float is elided; the scale factor itself (`10^18`) is exact
in `f64`. -/
def floatMulScale (fp : FloatValue) : FloatValue :=
  ⟨fp.num * (10 : Int) ^ 18, fp.den⟩

deriving instance DecidableEq for Except

/-- `fn de_float_to_price`: `(fp * 1_000_000_000_000_000_000_f64) as
u128`, wrapped in `Price::from_inner`.  The cast's truncation-toward-zero
and saturation are modelled exactly.  The function has no failure path of
its own (the only `Err` of the Rust signature comes from deserializing
the `f64` upstream), so its result type here is the always-`ok`
`Except Unit Price`. -/
def de_float_to_price (fp : FloatValue) : Except Unit Price :=
  .ok ⟨castF64ToU128 (floatMulScale fp)⟩

/-! Concrete values used to exercise the model. -/

/-- The empty ledger: no fetchers, no observations, no averages. -/
def emptyState : PalletState := ⟨[], [], []⟩

/-- The fetcher `start_fetcher` creates when called at block `0`. -/
def eth_fetcher : Fetcher :=
  ⟨"ETH", "https://api.diadata.org/v1/quotation/ETH", 600⟩

/-- A ledger holding one open ETH fetch window and nothing else. -/
def ethWindowState : PalletState := ⟨[("ETH", eth_fetcher)], [], []⟩

/-- An observation whose mantissa is `2^127`: half of the first value at
which a `u128` sum wraps. -/
def half_max_obs : FetchedPrice := ⟨⟨2 ^ 127⟩, "2020-01-01", "ETH", 1⟩

/-- A ledger with an open ETH window and two `2^127`-mantissa
observations, whose mantissa sum is exactly `2^128`. -/
def wrapState : PalletState :=
  ⟨[("ETH", eth_fetcher)], [("ETH", [half_max_obs, half_max_obs])], []⟩

/-- An observation with mantissa `3`. -/
def obs3 : FetchedPrice := ⟨⟨3⟩, "2020-01-01", "ETH", 1⟩

/-- An observation with mantissa `4`. -/
def obs4 : FetchedPrice := ⟨⟨4⟩, "2020-01-02", "ETH", 2⟩

/-- A ledger with an open ETH window and the two small observations. -/
def twoObsState : PalletState :=
  ⟨[("ETH", eth_fetcher)], [("ETH", [obs3, obs4])], []⟩

/-- The ledger left behind once an average of `⟨3⟩` is published at
timestamp `7` by account `1` and the ETH window is torn down. -/
def afterState : PalletState := ⟨[], [], [("ETH", (7, ⟨3⟩, 1))]⟩

/-- A parsed DIA record carrying price mantissa `5`. -/
def rec5 : DiaPriceRecord := ⟨⟨5⟩, "2020-01-03", "ETH"⟩

/-- The fetcher a successful `start_fetcher` call at `block_number`
inserts: hardcoded symbol, configured URL, deadline 600 blocks out. -/
def opened_fetcher (block_number : Nat) : Fetcher :=
  ⟨SYM, "https://api.diadata.org/v1/quotation/ETH", block_number + 600⟩

/-! Lemmas about the association-list storage maps. -/

theorem mapLookup_mapRemove_self {β : Type} (m : List (String × β))
    (k : String) : mapLookup (mapRemove m k) k = none := by
  induction m with
  | nil => rfl
  | cons kv rest ih =>
    by_cases h : kv.1 = k
    · simpa [mapRemove, h] using ih
    · simp [mapRemove, mapLookup, h, ih]

theorem mapLookup_mapRemove_ne {β : Type} (m : List (String × β))
    (k k2 : String) (h : k2 ≠ k) :
    mapLookup (mapRemove m k) k2 = mapLookup m k2 := by
  induction m with
  | nil => rfl
  | cons kv rest ih =>
    by_cases hk : kv.1 = k
    · simp [mapRemove, mapLookup, hk, Ne.symm h, ih]
    · by_cases hk2 : kv.1 = k2
      · simp [mapRemove, mapLookup, hk, hk2, h]
      · simp [mapRemove, mapLookup, hk, hk2, ih]

theorem mapLookup_mapInsert_self {β : Type} (m : List (String × β))
    (k : String) (v : β) : mapLookup (mapInsert m k v) k = some v := by
  simp [mapInsert, mapLookup]

theorem mapLookup_mapInsert_ne {β : Type} (m : List (String × β))
    (k k2 : String) (v : β) (h : k2 ≠ k) :
    mapLookup (mapInsert m k v) k2 = mapLookup m k2 := by
  have : k ≠ k2 := fun hc => h hc.symm
  simp [mapInsert, mapLookup, this, mapLookup_mapRemove_ne m k k2 h]

/-! Lemmas about the running fixed-point sum and count. -/

theorem U128_MOD_pos : 0 < U128_MOD := by
  simp [U128_MOD]

theorem priceFrom_zero : priceFrom 0 = ⟨0⟩ := by
  simp [priceFrom]

theorem priceFrom_one : priceFrom 1 = ⟨PRICE_DIV⟩ := by
  have h : PRICE_DIV ≤ U128_MOD - 1 := by norm_num [PRICE_DIV, U128_MOD]
  simp [priceFrom, h]

theorem foldl_priceAdd_inner (l : List FetchedPrice) (a : Price)
    (ha : a.inner < U128_MOD) :
    (l.foldl (fun s pp => priceAdd s pp.price) a).inner =
      (a.inner + (l.map (fun pp => pp.price.inner)).sum) % U128_MOD := by
  induction l generalizing a with
  | nil => simpa using (Nat.mod_eq_of_lt ha).symm
  | cons x xs ih =>
    have hlt : (priceAdd a x.price).inner < U128_MOD :=
      Nat.mod_lt _ U128_MOD_pos
    rw [List.foldl_cons, ih _ hlt]
    simp only [priceAdd, Nat.mod_add_mod, List.map_cons, List.sum_cons]
    congr 1
    ring

theorem sumPrices_inner (l : List FetchedPrice) :
    (sumPrices l).inner =
      (l.map (fun pp => pp.price.inner)).sum % U128_MOD := by
  have h := foldl_priceAdd_inner l (priceFrom 0)
    (by simp [priceFrom_zero, U128_MOD_pos])
  simpa [sumPrices, priceFrom_zero] using h

theorem foldl_count_inner (l : List FetchedPrice) (a : Price)
    (ha : a.inner < U128_MOD) :
    (l.foldl (fun c _ => priceAdd c (priceFrom 1)) a).inner =
      (a.inner + l.length * PRICE_DIV) % U128_MOD := by
  induction l generalizing a with
  | nil => simpa using (Nat.mod_eq_of_lt ha).symm
  | cons x xs ih =>
    have hlt : (priceAdd a (priceFrom 1)).inner < U128_MOD :=
      Nat.mod_lt _ U128_MOD_pos
    rw [List.foldl_cons, ih _ hlt]
    simp only [priceAdd, priceFrom_one, Nat.mod_add_mod, List.length_cons]
    congr 1
    ring

theorem samplesCount_inner (l : List FetchedPrice) :
    (samplesCount l).inner = l.length * PRICE_DIV % U128_MOD := by
  have h := foldl_count_inner l (priceFrom 0)
    (by simp [priceFrom_zero, U128_MOD_pos])
  simpa [samplesCount, priceFrom_zero] using h

/-! The claims. -/

/-- Claim C1: with no observations collected, `calc_and_submit_avg_price`
is supposed to treat aggregation as a no-op.  The code instead evaluates
`Price::from(0) / Price::from(0)`: the sample count is the zero
fixed-point value and the division is executed on it, which panics
(modelled by `none`).  The division by zero is real, not guarded. -/
theorem C1_empty_window_divides_by_zero :
    samplesCount [] = ⟨0⟩ ∧
    sumPrices [] = ⟨0⟩ ∧
    priceDiv (sumPrices []) (samplesCount []) = none ∧
    calc_and_submit_avg_price eth_fetcher ethWindowState = none := by
  refine ⟨by decide, by decide, by decide, by decide⟩

/-- Claim C2: `start_fetcher` while a fetcher for the hardcoded symbol
already exists always fails with `FetcherAlreadyExist` and, the dispatch
being rolled back, leaves all three storage maps unchanged. -/
theorem C2_open_exclusive (who block_number now : Nat) (st : PalletState)
    (f : Fetcher) (hf : mapLookup st.Fetchers SYM = some f) :
    start_fetcher who block_number now st = .error .FetcherAlreadyExist ∧
    dispatchResult (start_fetcher who block_number now st) st = st := by
  constructor
  · simp [start_fetcher, hf]
  · simp [dispatchResult, start_fetcher, hf]

/-- Witness for C2 at a ledger already holding an ETH window. -/
theorem C2_open_exclusive_witness :
    start_fetcher 1 0 7 ethWindowState = .error .FetcherAlreadyExist ∧
    dispatchResult (start_fetcher 1 0 7 ethWindowState) ethWindowState =
      ethWindowState :=
  C2_open_exclusive 1 0 7 ethWindowState eth_fetcher (by decide)

/-- Counterexample for C4: `submit_new_avg_price` against a ledger with
no fetch window does not fail with `FetcherNotFound`; it succeeds and
mutates the ledger, writing the average into `AvgPrices`. -/
theorem C4_no_window_counterexample :
    submit_new_avg_price 1 7 "ETH" ⟨5⟩ emptyState ≠
      .error .FetcherNotFound ∧
    submit_new_avg_price 1 7 "ETH" ⟨5⟩ emptyState =
      .ok ⟨[], [], [("ETH", (7, ⟨5⟩, 1))]⟩ ∧
    (⟨[], [], [("ETH", (7, ⟨5⟩, 1))]⟩ : PalletState) ≠ emptyState := by
  refine ⟨by decide, by decide, by decide⟩

/-- Claim C4 as amended: `submit_new_avg_price` checks nothing — for
every ledger state, with or without a window, it succeeds, overwrites the
symbol's `AvgPrices` entry, and removes the window and observation list
(a no-op removal when they are absent); so of two racing aggregation
attempts both publish, the later overwriting the earlier. -/
theorem C4_always_publishes (who now : Nat) (symbol : String)
    (avg_price : Price) (st : PalletState) :
    ∃ st2, submit_new_avg_price who now symbol avg_price st = .ok st2 ∧
      mapLookup st2.AvgPrices symbol = some (now, avg_price, who) ∧
      mapLookup st2.Fetchers symbol = none ∧
      mapLookup st2.FetchedPrices symbol = none := by
  refine ⟨_, rfl, mapLookup_mapInsert_self _ _ _,
    mapLookup_mapRemove_self _ _, mapLookup_mapRemove_self _ _⟩

/-- Claim C7: in each cycle the offchain worker visits every fetcher,
and per fetcher aggregation-when-due (`end_fetching_at ≤ block_number`)
takes priority: otherwise it fetches only on grace-period blocks, and
does nothing on all other blocks. -/
theorem C7_scheduler_priority (grace_period block_number : Nat)
    (st : PalletState) (symbol : String) (f : Fetcher) :
    ((symbol, f) ∈ st.Fetchers →
      (symbol, offchain_worker_action grace_period block_number f) ∈
        offchain_worker grace_period block_number st) ∧
    (f.end_fetching_at ≤ block_number →
      offchain_worker_action grace_period block_number f = .aggregate) ∧
    (block_number < f.end_fetching_at →
      block_number % grace_period = 0 →
      offchain_worker_action grace_period block_number f =
        .fetchAndSubmit) ∧
    (block_number < f.end_fetching_at →
      block_number % grace_period ≠ 0 →
      offchain_worker_action grace_period block_number f = .noAction) := by
  refine ⟨fun hmem => ?_, fun h => ?_, fun h1 h2 => ?_, fun h1 h2 => ?_⟩
  · exact List.mem_map.mpr ⟨(symbol, f), hmem, rfl⟩
  · simp [offchain_worker_action, h]
  · simp [offchain_worker_action, Nat.not_le.mpr h1, h2]
  · simp [offchain_worker_action, Nat.not_le.mpr h1, h2]

/-- Witness for C7: the ETH window (deadline 600) with grace period 5 is
aggregated at block 600, fetched at block 100, and left alone at
block 101. -/
theorem C7_scheduler_priority_witness :
    ("ETH", WorkerTask.aggregate) ∈ offchain_worker 5 600 ethWindowState ∧
    offchain_worker_action 5 600 eth_fetcher = .aggregate ∧
    offchain_worker_action 5 100 eth_fetcher = .fetchAndSubmit ∧
    offchain_worker_action 5 101 eth_fetcher = .noAction := by
  have h600 := C7_scheduler_priority 5 600 ethWindowState "ETH" eth_fetcher
  have h100 := C7_scheduler_priority 5 100 ethWindowState "ETH" eth_fetcher
  have h101 := C7_scheduler_priority 5 101 ethWindowState "ETH" eth_fetcher
  have ha : offchain_worker_action 5 600 eth_fetcher = .aggregate :=
    h600.2.1 (by decide)
  refine ⟨?_, ha, h100.2.2.1 (by decide) (by decide),
    h101.2.2.2 (by decide) (by decide)⟩
  have hmem := h600.1 (by decide)
  rwa [ha] at hmem

/-- Claim C8: `de_float_to_price` multiplies by `10^18` and truncates
toward zero, but on a price whose scaled value exceeds the `u128`
capacity it does not fail with an overflow error: it has no failure path
at all and the `as u128` cast saturates to `u128::MAX`.  At the price
`10^30` the scaled value `10^48` exceeds `2^128`, yet the function
returns `ok` with the saturated mantissa. -/
theorem C8_overflow_saturates_without_error :
    (∀ fp : FloatValue, (de_float_to_price fp).isOk = true) ∧
    de_float_to_price ⟨10 ^ 30, 1⟩ = .ok ⟨U128_MOD - 1⟩ ∧
    U128_MOD ≤ 10 ^ 30 * PRICE_DIV := by
  refine ⟨fun fp => rfl, by decide, by norm_num [PRICE_DIV, U128_MOD]⟩

/-- Counterexample for C9: the running sum of
`calc_and_submit_avg_price` is plain `u128` addition.  On two
observations of mantissa `2^127` the computed sum is `0`: it is neither
the mathematical sum `2^128` (which checked addition would have refused)
nor the saturated value `2^128 - 1`; the addition wrapped. -/
theorem C9_plain_addition_wraps :
    (sumPrices [half_max_obs, half_max_obs]).inner = 0 ∧
    half_max_obs.price.inner + half_max_obs.price.inner = U128_MOD ∧
    (sumPrices [half_max_obs, half_max_obs]).inner ≠
      half_max_obs.price.inner + half_max_obs.price.inner ∧
    (sumPrices [half_max_obs, half_max_obs]).inner ≠ U128_MOD - 1 := by
  refine ⟨by decide, by decide, by decide, by decide⟩

/-- Claim C9 as amended: the aggregator's running sum is plain
fixed-point addition on the `u128` mantissa, reducing modulo `2^128`; it
is neither saturating nor checked, so a sum reaching `2^128` wraps. -/
theorem C9_sum_wraps_mod_u128 (price_points : List FetchedPrice) :
    (sumPrices price_points).inner =
      (price_points.map (fun pp => pp.price.inner)).sum % U128_MOD :=
  sumPrices_inner price_points

/-- Claim C10: `start_fetcher` takes no symbol argument; it can never
fail with `SymbolNotFound`, because the hardcoded symbol `"ETH"` is the
one entry of the `SYMBOLS` allow-list, and every successful call opens
the window for `"ETH"` with the configured DIA URL and a deadline of
`block_number + 600`. -/
theorem C10_hardcoded_eth_symbol (who block_number now : Nat)
    (st : PalletState) :
    start_fetcher who block_number now st ≠ .error .SymbolNotFound ∧
    (mapLookup st.Fetchers SYM = none →
      start_fetcher who block_number now st =
        .ok { st with Fetchers := mapInsert st.Fetchers SYM (opened_fetcher block_number) }) := by
  have hok : ∀ _ : mapLookup st.Fetchers SYM = none,
      start_fetcher who block_number now st =
        .ok { st with Fetchers := mapInsert st.Fetchers SYM (opened_fetcher block_number) } := by
    intro hnone
    simp only [start_fetcher, hnone]
    rfl
  constructor
  · cases hcase : mapLookup st.Fetchers SYM with
    | some f => simp [start_fetcher, hcase]
    | none =>
      rw [hok hcase]
      exact fun h => Except.noConfusion h
  · exact hok

/-- Counterexample for C3: with two observations of mantissa `2^127`,
the wrapped running sum makes aggregation publish mantissa
`0` instead of `floor((2^127 + 2^127) / 2) = 2^127`. -/
theorem C3_overflow_counterexample :
    calc_and_submit_avg_price eth_fetcher wrapState =
      some ("ETH", ⟨0⟩) ∧
    (half_max_obs.price.inner + half_max_obs.price.inner) / 2 = 2 ^ 127 ∧
    (2 ^ 127 : Nat) ≠ 0 := by
  refine ⟨by decide, by decide, by decide⟩

/-- Claim C3 as amended: for every non-empty observation list whose
mantissa sum stays below `2^128` (and whose count times `10^18` does),
`calc_and_submit_avg_price` produces exactly `floor(sum(pi)/n)` on the
mantissas, and once the `submit_new_avg_price` call it triggers has
executed, the fetch window and the observation list for the symbol no
longer exist. -/
theorem C3_aggregation_floor_mean (fetcher : Fetcher) (st : PalletState)
    (who now : Nat) (price_points : List FetchedPrice)
    (hpts : mapLookup st.FetchedPrices fetcher.symbol = some price_points)
    (hne : price_points ≠ [])
    (hsum : (price_points.map (fun pp => pp.price.inner)).sum < U128_MOD)
    (hcnt : price_points.length * PRICE_DIV < U128_MOD) :
    calc_and_submit_avg_price fetcher st =
      some (fetcher.symbol,
        ⟨(price_points.map (fun pp => pp.price.inner)).sum /
          price_points.length⟩) ∧
    ∀ avg_price st2,
      submit_new_avg_price who now fetcher.symbol avg_price st = .ok st2 →
        mapLookup st2.Fetchers fetcher.symbol = none ∧
        mapLookup st2.FetchedPrices fetcher.symbol = none := by
  constructor
  · have hdivpos : 0 < PRICE_DIV := by norm_num [PRICE_DIV]
    have hlen : 0 < price_points.length := List.length_pos.mpr hne
    have hs : (sumPrices price_points).inner =
        (price_points.map (fun pp => pp.price.inner)).sum := by
      rw [sumPrices_inner, Nat.mod_eq_of_lt hsum]
    have hc : (samplesCount price_points).inner =
        price_points.length * PRICE_DIV := by
      rw [samplesCount_inner, Nat.mod_eq_of_lt hcnt]
    have hc0 : price_points.length * PRICE_DIV ≠ 0 :=
      Nat.ne_of_gt (Nat.mul_pos hlen hdivpos)
    have hquot :
        (sumPrices price_points).inner * PRICE_DIV /
            (price_points.length * PRICE_DIV) =
          (price_points.map (fun pp => pp.price.inner)).sum /
            price_points.length := by
      rw [hs, Nat.mul_div_mul_right _ _ hdivpos]
    have hlt :
        (price_points.map (fun pp => pp.price.inner)).sum /
            price_points.length < U128_MOD :=
      Nat.lt_of_le_of_lt (Nat.div_le_self _ _) hsum
    simp only [calc_and_submit_avg_price, hpts, Option.getD_some,
      priceDiv, hc, if_neg hc0, hquot, if_pos hlt]
    rfl
  · intro avg_price st2 h
    have hst2 : st2 = { st with
        AvgPrices :=
          mapInsert st.AvgPrices fetcher.symbol (now, avg_price, who),
        Fetchers := mapRemove st.Fetchers fetcher.symbol,
        FetchedPrices := mapRemove st.FetchedPrices fetcher.symbol } := by
      cases h
      rfl
    rw [hst2]
    exact ⟨mapLookup_mapRemove_self _ _, mapLookup_mapRemove_self _ _⟩

/-- Witness for C3 (amended): two observations of mantissas 3 and 4
aggregate to mantissa `floor(7/2) = 3`, and the publication removes the
window and the observation list. -/
theorem C3_aggregation_floor_mean_witness :
    calc_and_submit_avg_price eth_fetcher twoObsState =
      some ("ETH", ⟨3⟩) ∧
    (mapLookup afterState.Fetchers "ETH" = none ∧
      mapLookup afterState.FetchedPrices "ETH" = none) := by
  have h := C3_aggregation_floor_mean eth_fetcher twoObsState 1 7
    [obs3, obs4] (by decide) (by decide) (by decide) (by decide)
  exact ⟨h.1, h.2 ⟨3⟩ afterState (by decide)⟩

/-- Claim C5: `submit_new_price` with no fetch window for the record's
symbol fails with `FetcherNotFound` and, rolled back, changes nothing;
with a window present it succeeds and appends the observation to the
symbol's list. -/
theorem C5_submit_price_requires_window (who now : Nat)
    (price_record : DiaPriceRecord) (st : PalletState) :
    (mapLookup st.Fetchers price_record.symbol = none →
      submit_new_price who now price_record st =
        .error .FetcherNotFound ∧
      dispatchResult (submit_new_price who now price_record st) st =
        st) ∧
    (∀ f, mapLookup st.Fetchers price_record.symbol = some f →
      submit_new_price who now price_record st =
        .ok (add_new_price_to_list ⟨price_record.price, price_record.time, price_record.symbol, who⟩ st) ∧
      mapLookup (add_new_price_to_list ⟨price_record.price, price_record.time, price_record.symbol, who⟩ st).FetchedPrices price_record.symbol =
        some (((mapLookup st.FetchedPrices price_record.symbol).getD []) ++
          [⟨price_record.price, price_record.time, price_record.symbol, who⟩])) := by
  constructor
  · intro h
    constructor
    · simp [submit_new_price, h]
    · simp [dispatchResult, submit_new_price, h]
  · intro f hf
    constructor
    · simp [submit_new_price, hf]
    · exact mapLookup_mapInsert_self _ _ _

/-- Witness for C5: rejected on the empty ledger, accepted and recorded
on a ledger with an open ETH window. -/
theorem C5_submit_price_requires_window_witness :
    (submit_new_price 1 7 rec5 emptyState = .error .FetcherNotFound ∧
      dispatchResult (submit_new_price 1 7 rec5 emptyState) emptyState =
        emptyState) ∧
    (submit_new_price 1 7 rec5 ethWindowState =
      .ok (add_new_price_to_list ⟨⟨5⟩, "2020-01-03", "ETH", 1⟩ ethWindowState) ∧
    mapLookup (add_new_price_to_list ⟨⟨5⟩, "2020-01-03", "ETH", 1⟩ ethWindowState).FetchedPrices "ETH" =
      some [⟨⟨5⟩, "2020-01-03", "ETH", 1⟩]) := by
  have h1 := (C5_submit_price_requires_window 1 7 rec5 emptyState).1
    (by decide)
  have h2 := (C5_submit_price_requires_window 1 7 rec5 ethWindowState).2
    eth_fetcher (by decide)
  exact ⟨h1, h2⟩

/-- Claim C6: `add_new_price_to_list` appends exactly one entry to the
symbol's observation list, preserving all existing entries and every
other symbol's list; and the observation list is removed only by
`submit_new_avg_price`, atomically together with the window. -/
theorem C6_append_only_until_close (price : FetchedPrice)
    (st : PalletState) (who now : Nat) (avg_price : Price)
    (symbol2 : String) :
    mapLookup (add_new_price_to_list price st).FetchedPrices
        price.symbol =
      some (((mapLookup st.FetchedPrices price.symbol).getD []) ++
        [price]) ∧
    (symbol2 ≠ price.symbol →
      mapLookup (add_new_price_to_list price st).FetchedPrices symbol2 =
        mapLookup st.FetchedPrices symbol2) ∧
    (add_new_price_to_list price st).Fetchers = st.Fetchers ∧
    (∀ st2,
      submit_new_avg_price who now price.symbol avg_price st = .ok st2 →
        mapLookup st2.Fetchers price.symbol = none ∧
        mapLookup st2.FetchedPrices price.symbol = none) := by
  refine ⟨mapLookup_mapInsert_self _ _ _, fun h => ?_, rfl,
    fun st2 h => ?_⟩
  · exact mapLookup_mapInsert_ne _ _ _ _ h
  · have hst2 : st2 = { st with
        AvgPrices :=
          mapInsert st.AvgPrices price.symbol (now, avg_price, who),
        Fetchers := mapRemove st.Fetchers price.symbol,
        FetchedPrices := mapRemove st.FetchedPrices price.symbol } := by
      cases h
      rfl
    rw [hst2]
    exact ⟨mapLookup_mapRemove_self _ _, mapLookup_mapRemove_self _ _⟩

/-- Witness for C6: appending the mantissa-3 observation on a ledger
with an open ETH window grows the ETH list, leaves the BTC list alone,
and closing removes window and list together. -/
theorem C6_append_only_until_close_witness :
    mapLookup (add_new_price_to_list obs3 ethWindowState).FetchedPrices
        "ETH" = some [obs3] ∧
    mapLookup (add_new_price_to_list obs3 ethWindowState).FetchedPrices
        "BTC" = none ∧
    (mapLookup afterState.Fetchers "ETH" = none ∧
      mapLookup afterState.FetchedPrices "ETH" = none) := by
  have h := C6_append_only_until_close obs3 ethWindowState 1 7 ⟨3⟩ "BTC"
  refine ⟨h.1, ?_, h.2.2.2 afterState (by decide)⟩
  have hb := h.2.1 (by decide)
  simpa using hb

/-- Witness for C10: opening on the empty ledger inserts the ETH window
with the DIA URL and a deadline 600 blocks out. -/
theorem C10_hardcoded_eth_symbol_witness :
    start_fetcher 1 0 7 emptyState ≠ .error .SymbolNotFound ∧
    start_fetcher 1 0 7 emptyState =
      .ok ⟨[("ETH", eth_fetcher)], [], []⟩ := by
  have h := C10_hardcoded_eth_symbol 1 0 7 emptyState
  exact ⟨h.1, h.2 (by decide)⟩

end PriceFetch
